import Mathlib

/-!
Shallow embedding of the transaction anomaly detection core
(rule_engine.py and anomaly_detector.py).

Modelling conventions:
* Python floats for amounts, thresholds and scores are embedded as `ℚ`
  (exact arithmetic over the decimal literals appearing in the source).
* Timestamps are epoch seconds as `ℤ` once parsed; the raw timestamp field
  of a transaction is a `TimestampValue` describing which of the input
  shapes of `RuleEngine._parse_timestamp` it has.
* `datetime.now()` is an explicit parameter `now : ℤ` of each evaluation.
* Python exceptions are `Except String`; an uncaught exception aborts the
  evaluation exactly as in the source.
* The great-circle distance of `_haversine_distance` needs real-valued
  trigonometric functions; the engine is therefore parameterised by the
  distance function `distf` it uses, and the actual haversine formula is
  embedded separately over `ℝ` for the geographic claim.
-/

namespace TxAnomaly

/-- Severity tags, the fixed ordered set of the data model. -/
inductive Severity where
  | LOW
  | MEDIUM
  | HIGH
  | CRITICAL
deriving DecidableEq, Repr

/-- The `severity_weights` table of `RuleEngine._calculate_risk_score`.
All four tags are present in the source dictionary, so the `.get`
default of 0.5 is unreachable for values of `Severity`. -/
def severity_weight : Severity → ℚ
  | .CRITICAL => 1.0
  | .HIGH => 0.7
  | .MEDIUM => 0.4
  | .LOW => 0.2

/-- Output of one triggered rule (`anomalies` list entries built in
`RuleEngine.evaluate_transaction`). -/
structure AnomalyRecord where
  rule : String
  rdescription : String
  reason : String
  severity : Severity
deriving DecidableEq, Repr

/-- `RuleEngine._calculate_risk_score`: 0 on the empty list, otherwise the
sum of `severity_weight * 25` over the records, capped at 100
(`min(total_score, 100)`, written out as Python computes it so that the
definition evaluates). -/
def calculate_risk_score (anomalies : List AnomalyRecord) : ℚ :=
  if anomalies = [] then 0
  else
    let total_score := (anomalies.map (fun a => severity_weight a.severity * 25)).sum
    if total_score ≤ 100 then total_score else 100

/-- The raw `timestamp` field of a transaction, classified by the branches
of `RuleEngine._parse_timestamp`:
* `strGood t raw`: a string in the `%Y-%m-%d %H:%M:%S` format, denoting
  epoch second `t`;
* `strBad raw`: a string not in that format (`datetime.strptime` raises);
* `pdTs t`: a `pandas.Timestamp` denoting `t`;
* `pyDatetime t`: a native `datetime` denoting `t`;
* `otherParseable t`: any other value `pd.to_datetime` can parse;
* `otherUnparseable`: any other value, where `pd.to_datetime` raises and
  the code falls back to `datetime.now()`. -/
inductive TimestampValue where
  | strGood (t : ℤ) (raw : String)
  | strBad (raw : String)
  | pdTs (t : ℤ)
  | pyDatetime (t : ℤ)
  | otherParseable (t : ℤ)
  | otherUnparseable
deriving DecidableEq, Repr

/-- `RuleEngine._parse_timestamp`. A malformed string raises `ValueError`
(uncaught); only the final `except` branch falls back to `now`. -/
def parse_timestamp (now : ℤ) : TimestampValue → Except String ℤ
  | .strGood t _ => .ok t
  | .strBad raw => .error ("ValueError: time data " ++ raw ++ " does not match format")
  | .pdTs t => .ok t
  | .pyDatetime t => .ok t
  | .otherParseable t => .ok t
  | .otherUnparseable => .ok now

/-- The epoch second denoted by a parseable timestamp value (junk on the
two shapes that do not denote a time by themselves). -/
def tsVal : TimestampValue → ℤ
  | .strGood t _ => t
  | .strBad _ => 0
  | .pdTs t => t
  | .pyDatetime t => t
  | .otherParseable t => t
  | .otherUnparseable => 0

/-- A timestamp value that parses on its own: not a malformed string and
not an unparseable fallback value. -/
def ts_ok : TimestampValue → Bool
  | .strBad _ => false
  | .otherUnparseable => false
  | _ => true

/-- String rendering of the raw timestamp (`str(transaction['timestamp'])`
copied into the verdict). -/
def tsRender : TimestampValue → String
  | .strGood _ raw => raw
  | .strBad raw => raw
  | .pdTs t => "pd." ++ toString t
  | .pyDatetime t => "dt." ++ toString t
  | .otherParseable t => "other." ++ toString t
  | .otherUnparseable => "unparseable"

/-- Hour of day of an epoch-second instant (`datetime.hour`). -/
def hour_of (t : ℤ) : ℤ := (t.ediv 3600).emod 24

/-- A transaction record, the fields the core reads. -/
structure Transaction where
  transaction_id : String
  timestamp : TimestampValue
  account_id : String
  amount : ℚ
  country : String
  merchant : Option String
deriving DecidableEq, Repr

/-- Per-transaction verdict returned by `evaluate_transaction`. -/
structure Verdict where
  transaction_id : String
  timestamp : String
  account_id : String
  amount : ℚ
  is_anomalous : Bool
  anomaly_count : ℕ
  anomalies : List AnomalyRecord
  triggered_rules : List String
  risk_score : ℚ
deriving DecidableEq, Repr

/-- Association list lookup (Python `dict` access / `dict.get`). -/
def alookup {α : Type} : List (String × α) → String → Option α
  | [], _ => none
  | (k, v) :: rest, key => if k = key then some v else alookup rest key

/-- Association list assignment (Python `dict[key] = v`): replace in place
when the key exists, append otherwise. -/
def aset {α : Type} : List (String × α) → String → α → List (String × α)
  | [], key, v => [(key, v)]
  | (k, w) :: rest, key, v =>
    if k = key then (k, v) :: rest else (k, w) :: aset rest key v

/-- `RuleEngine.transaction_history`: per account, the list of retained
(timestamp, amount) pairs. -/
def History : Type := List (String × List (ℤ × ℚ))

instance : DecidableEq History := by unfold History; infer_instance

/-- The typed view of the default `RuleEngine.rules` dictionary shape that
evaluation reads (thresholds, enabled flags, descriptions). Field order
follows the insertion order of the source dictionary, which is the rule
iteration order of `evaluate_transaction`. -/
structure RulesConfig where
  la_threshold : ℚ
  la_enabled : Bool
  la_description : String
  rapid_threshold : ℕ
  rapid_time_window : ℤ
  rapid_enabled : Bool
  rapid_description : String
  odd_start_hour : ℤ
  odd_end_hour : ℤ
  odd_enabled : Bool
  odd_description : String
  geo_max_speed_kmh : ℚ
  geo_enabled : Bool
  geo_description : String
  susp_countries : List String
  susp_enabled : Bool
  susp_description : String
  merch_suspicious : List String
  merch_enabled : Bool
  merch_description : String
deriving DecidableEq, Repr

/-- The default rule configuration of `RuleEngine.__init__`. -/
def default_rules : RulesConfig where
  la_threshold := 5000
  la_enabled := true
  la_description := "Transactions above $5000"
  rapid_threshold := 3
  rapid_time_window := 300
  rapid_enabled := true
  rapid_description := "3+ transactions in 5 minutes"
  odd_start_hour := 23
  odd_end_hour := 6
  odd_enabled := true
  odd_description := "Transactions between 11 PM and 6 AM"
  geo_max_speed_kmh := 800
  geo_enabled := true
  geo_description := "Impossible geographic travel"
  susp_countries := ["RU", "NG", "UA", "KP", "SY"]
  susp_enabled := true
  susp_description := "Transactions from high-risk countries"
  merch_suspicious := ["DARK_WEB_STORE", "UNKNOWN_VENDOR", "TEST_MERCHANT"]
  merch_enabled := true
  merch_description := "Transactions with suspicious merchants"

/-- `RuleEngine.country_coords`: representative (latitude, longitude) per
country code. -/
def country_coords (c : String) : Option (ℚ × ℚ) :=
  alookup
    [("US", (37.0902, -95.7129)), ("UK", (55.3781, -3.4360)),
     ("CA", (56.1304, -106.3468)), ("AU", (-25.2744, 133.7751)),
     ("DE", (51.1657, 10.4515)), ("FR", (46.2276, 2.2137)),
     ("JP", (36.2048, 138.2529)), ("SG", (1.3521, 103.8198)),
     ("IN", (20.5937, 78.9629)), ("RU", (61.5240, 105.3188)),
     ("NG", (9.0820, 8.6753)), ("UA", (48.3794, 31.1656)),
     ("BR", (-14.2350, -51.9253)), ("CN", (35.8617, 104.1954))] c

/-- `RuleEngine.check_large_amount`. -/
def check_large_amount (cfg : RulesConfig) (tx : Transaction) : Bool × String :=
  if cfg.la_threshold < tx.amount then
    (true, "Large amount: $" ++ toString tx.amount ++ " > $" ++ toString cfg.la_threshold)
  else (false, "")

/-- The state effect of `RuleEngine.check_rapid_transactions`: filter the
account's retained entries to those with timestamp strictly after
`ts - window`, then append the current (timestamp, amount). -/
def prune_append (window : ℤ) (hist : History) (acct : String) (ts : ℤ) (amt : ℚ) :
    History :=
  aset hist acct
    ((((alookup hist acct).getD []).filter (fun p => ts - window < p.1)) ++ [(ts, amt)])

/-- `RuleEngine.check_rapid_transactions`: prune and append the account's
window, then trigger when the retained count reaches the threshold. -/
def check_rapid_transactions (cfg : RulesConfig) (hist : History) (now : ℤ)
    (tx : Transaction) : Except String (Bool × String × History) :=
  match parse_timestamp now tx.timestamp with
  | .error e => .error e
  | .ok ts =>
    let hist1 := prune_append cfg.rapid_time_window hist tx.account_id ts tx.amount
    let n := ((alookup hist1 tx.account_id).getD []).length
    if cfg.rapid_threshold ≤ n then
      .ok (true, "Rapid transactions: " ++ toString n ++ " in " ++
        toString cfg.rapid_time_window ++ " seconds", hist1)
    else .ok (false, "", hist1)

/-- `RuleEngine.check_odd_hours`. -/
def check_odd_hours (cfg : RulesConfig) (now : ℤ) (tx : Transaction) :
    Except String (Bool × String) :=
  match parse_timestamp now tx.timestamp with
  | .error e => .error e
  | .ok ts =>
    let hour := hour_of ts
    if cfg.odd_start_hour ≤ 23 ∧ cfg.odd_start_hour ≤ hour then
      .ok (true, "Odd hour transaction: " ++ toString hour ++ ":00")
    else if 0 ≤ cfg.odd_end_hour ∧ hour ≤ cfg.odd_end_hour then
      .ok (true, "Odd hour transaction: " ++ toString hour ++ ":00")
    else .ok (false, "")

/-- `RuleEngine.check_geographic_impossible`, parameterised by the distance
function `distf` standing for `_haversine_distance` (whose real-valued
formula is embedded separately below as `haversine_distance`). -/
def check_geographic_impossible_d (distf : ℚ × ℚ → ℚ × ℚ → ℚ) (cfg : RulesConfig)
    (now : ℤ) (tx : Transaction) : Option Transaction → Except String (Bool × String)
  | none => .ok (false, "")
  | some p =>
    match country_coords tx.country, country_coords p.country with
    | some c2, some c1 =>
      match parse_timestamp now tx.timestamp with
      | .error e => .error e
      | .ok ct =>
        match parse_timestamp now p.timestamp with
        | .error e => .error e
        | .ok pt =>
          let time_diff_hours : ℚ := |((ct - pt : ℤ) : ℚ)| / 3600
          if time_diff_hours = 0 then .ok (false, "")
          else
            let speed := distf c1 c2 / time_diff_hours
            if cfg.geo_max_speed_kmh < speed then
              .ok (true, "Impossible travel: " ++ toString speed ++ " km/h required")
            else .ok (false, "")
    | _, _ => .ok (false, "")

/-- `RuleEngine.check_suspicious_country`. -/
def check_suspicious_country (cfg : RulesConfig) (tx : Transaction) : Bool × String :=
  if cfg.susp_countries.contains tx.country then
    (true, "Suspicious country: " ++ tx.country)
  else (false, "")

/-- `RuleEngine.check_unusual_merchant` (`transaction.get('merchant', '')`). -/
def check_unusual_merchant (cfg : RulesConfig) (tx : Transaction) : Bool × String :=
  let merchant := tx.merchant.getD ""
  if cfg.merch_suspicious.contains merchant then
    (true, "Suspicious merchant: " ++ merchant)
  else (false, "")

/-- `RuleEngine._calculate_severity`. -/
def calculate_severity (rule_name : String) (tx : Transaction) : Severity :=
  if rule_name = "large_amount" then
    if 20000 < tx.amount then .CRITICAL
    else if 10000 < tx.amount then .HIGH
    else .MEDIUM
  else if rule_name = "suspicious_countries" then .HIGH
  else if rule_name = "unusual_merchant" then .CRITICAL
  else if rule_name = "geographic_impossible" then .HIGH
  else .MEDIUM

/-- The anomaly record appended by `evaluate_transaction` when a rule
triggers (empty list otherwise). -/
def mkRecords (rule_name rdesc : String) (tx : Transaction) (r : Bool × String) :
    List AnomalyRecord :=
  if r.1 then [⟨rule_name, rdesc, r.2, calculate_severity rule_name tx⟩] else []

/-- The `triggered_rules` entry appended when a rule triggers. -/
def mkNames (rule_name : String) (r : Bool × String) : List String :=
  if r.1 then [rule_name] else []

/-- The verdict dictionary assembled at the end of `evaluate_transaction`
from the six per-rule results (in rule iteration order). -/
def build_verdict (cfg : RulesConfig) (tx : Transaction)
    (r1 r2 r3 r4 r5 r6 : Bool × String) : Verdict :=
  let anomalies :=
    mkRecords "large_amount" cfg.la_description tx r1 ++
    mkRecords "rapid_transactions" cfg.rapid_description tx r2 ++
    mkRecords "odd_hours" cfg.odd_description tx r3 ++
    mkRecords "geographic_impossible" cfg.geo_description tx r4 ++
    mkRecords "suspicious_countries" cfg.susp_description tx r5 ++
    mkRecords "unusual_merchant" cfg.merch_description tx r6
  let triggered :=
    mkNames "large_amount" r1 ++ mkNames "rapid_transactions" r2 ++
    mkNames "odd_hours" r3 ++ mkNames "geographic_impossible" r4 ++
    mkNames "suspicious_countries" r5 ++ mkNames "unusual_merchant" r6
  { transaction_id := tx.transaction_id,
    timestamp := tsRender tx.timestamp,
    account_id := tx.account_id,
    amount := tx.amount,
    is_anomalous := decide (0 < anomalies.length),
    anomaly_count := anomalies.length,
    anomalies := anomalies,
    triggered_rules := triggered,
    risk_score := calculate_risk_score anomalies }

/-- `RuleEngine.evaluate_transaction`: evaluate the enabled rules in the
fixed dictionary insertion order, collect anomaly records and triggered
rule names, and assemble the verdict. A disabled rule is skipped (no
evaluation, no state effect, no record). -/
def evaluate_transaction (distf : ℚ × ℚ → ℚ × ℚ → ℚ) (cfg : RulesConfig)
    (hist : History) (now : ℤ) (tx : Transaction) (prev : Option Transaction) :
    Except String (Verdict × History) :=
  match (if cfg.rapid_enabled then check_rapid_transactions cfg hist now tx
         else .ok (false, "", hist)) with
  | .error e => .error e
  | .ok (b2, s2, hist1) =>
    match (if cfg.odd_enabled then check_odd_hours cfg now tx else .ok (false, "")) with
    | .error e => .error e
    | .ok r3 =>
      match (if cfg.geo_enabled then check_geographic_impossible_d distf cfg now tx prev
             else .ok (false, "")) with
      | .error e => .error e
      | .ok r4 =>
        .ok (build_verdict cfg tx
               (if cfg.la_enabled then check_large_amount cfg tx else (false, ""))
               (b2, s2) r3 r4
               (if cfg.susp_enabled then check_suspicious_country cfg tx else (false, ""))
               (if cfg.merch_enabled then check_unusual_merchant cfg tx else (false, "")),
             hist1)

/-- The mutable state of `AnomalyDetector` + `RuleEngine` read and written
per evaluation: the per-account previous transaction and the per-account
trailing window. -/
structure DetectorState where
  account_history : List (String × Transaction)
  transaction_history : History
deriving DecidableEq

/-- Fresh engine state. -/
def initialState : DetectorState := ⟨[], []⟩

/-- `AnomalyDetector.process_transaction`: look up the previous transaction
for the account, evaluate, then record the current transaction as the new
previous. -/
def process_transaction (distf : ℚ × ℚ → ℚ × ℚ → ℚ) (cfg : RulesConfig)
    (st : DetectorState) (now : ℤ) (tx : Transaction) :
    Except String (Verdict × DetectorState) :=
  match evaluate_transaction distf cfg st.transaction_history now tx
      (alookup st.account_history tx.account_id) with
  | .error e => .error e
  | .ok (v, hist1) => .ok (v, ⟨aset st.account_history tx.account_id tx, hist1⟩)

/-- `AnomalyDetector.process_batch`: process the transactions in order,
threading the state; `nows k` is the wall clock at the k-th call. -/
def process_batch (distf : ℚ × ℚ → ℚ × ℚ → ℚ) (cfg : RulesConfig) (nows : ℕ → ℤ)
    (st : DetectorState) : List Transaction → Except String (List Verdict × DetectorState)
  | [] => .ok ([], st)
  | tx :: rest =>
    match process_transaction distf cfg st (nows 0) tx with
    | .error e => .error e
    | .ok (v, st1) =>
      match process_batch distf cfg (fun i => nows (i + 1)) st1 rest with
      | .error e => .error e
      | .ok (vs, st2) => .ok (v :: vs, st2)

/-- A value stored in a rule configuration dictionary (numbers, flags,
strings, string collections). -/
inductive RVal where
  | num (q : ℚ)
  | flag (b : Bool)
  | str (s : String)
  | strs (l : List String)
deriving DecidableEq, Repr

/-- The untyped `RuleEngine.rules` dictionary: rule id → field → value,
with Python dict insertion-order semantics. -/
def RulesDict : Type := List (String × List (String × RVal))

instance : DecidableEq RulesDict := by unfold RulesDict; infer_instance

/-- Python `dict.update(kwargs)`: assign each key-value pair in order. -/
def dict_update (d : List (String × RVal)) (kvs : List (String × RVal)) :
    List (String × RVal) :=
  kvs.foldl (fun acc kv => aset acc kv.1 kv.2) d

/-- `RuleEngine.update_rule`: update the named rule's fields when the rule
id exists, otherwise leave the dictionary untouched; the returned string is
the message the source prints. -/
def update_rule (rules : RulesDict) (rule_name : String)
    (kwargs : List (String × RVal)) : RulesDict × String :=
  match alookup rules rule_name with
  | some cfg =>
    (aset rules rule_name (dict_update cfg kwargs), "Updated rule: " ++ rule_name)
  | none => (rules, "Rule not found: " ++ rule_name)

/-- The default `RuleEngine.rules` dictionary of `__init__`, untyped view. -/
def default_rules_dict : RulesDict :=
  [("large_amount",
    [("threshold", .num 5000), ("enabled", .flag true),
     ("description", .str "Transactions above $5000")]),
   ("rapid_transactions",
    [("threshold", .num 3), ("time_window", .num 300), ("enabled", .flag true),
     ("description", .str "3+ transactions in 5 minutes")]),
   ("odd_hours",
    [("start_hour", .num 23), ("end_hour", .num 6), ("enabled", .flag true),
     ("description", .str "Transactions between 11 PM and 6 AM")]),
   ("geographic_impossible",
    [("max_speed_kmh", .num 800), ("enabled", .flag true),
     ("description", .str "Impossible geographic travel")]),
   ("suspicious_countries",
    [("countries", .strs ["RU", "NG", "UA", "KP", "SY"]), ("enabled", .flag true),
     ("description", .str "Transactions from high-risk countries")]),
   ("unusual_merchant",
    [("suspicious_merchants", .strs ["DARK_WEB_STORE", "UNKNOWN_VENDOR", "TEST_MERCHANT"]),
     ("enabled", .flag true),
     ("description", .str "Transactions with suspicious merchants")])]

section GeoReal

open Classical

/-- `math.atan2` over the reals. -/
noncomputable def atan2 (y x : ℝ) : ℝ :=
  if 0 < x then Real.arctan (y / x)
  else if x < 0 then
    (if 0 ≤ y then Real.arctan (y / x) + Real.pi else Real.arctan (y / x) - Real.pi)
  else if 0 < y then Real.pi / 2
  else if y < 0 then -(Real.pi / 2)
  else 0

/-- `RuleEngine._haversine_distance` over the reals: Earth radius 6371 km,
degrees converted to radians, the haversine formula. -/
noncomputable def haversine_distance (lat1 lon1 lat2 lon2 : ℝ) : ℝ :=
  let R : ℝ := 6371
  let rlat1 := lat1 * (Real.pi / 180)
  let rlon1 := lon1 * (Real.pi / 180)
  let rlat2 := lat2 * (Real.pi / 180)
  let rlon2 := lon2 * (Real.pi / 180)
  let dlat := rlat2 - rlat1
  let dlon := rlon2 - rlon1
  let a := Real.sin (dlat / 2) ^ 2 +
    Real.cos rlat1 * Real.cos rlat2 * Real.sin (dlon / 2) ^ 2
  let c := 2 * atan2 (Real.sqrt a) (Real.sqrt (1 - a))
  R * c

/-- The trigger component of `RuleEngine.check_geographic_impossible`, with
the real-valued `_haversine_distance` inlined as in the source: no previous
transaction, an unknown country, or a zero elapsed time skip the rule;
otherwise the implied speed is compared against `max_speed_kmh`. -/
noncomputable def check_geographic_impossible (max_speed_kmh : ℚ) (now : ℤ)
    (tx : Transaction) : Option Transaction → Except String Bool
  | none => .ok false
  | some p =>
    match country_coords tx.country, country_coords p.country with
    | some c2, some c1 =>
      match parse_timestamp now tx.timestamp with
      | .error e => .error e
      | .ok ct =>
        match parse_timestamp now p.timestamp with
        | .error e => .error e
        | .ok pt =>
          let time_diff_hours : ℚ := |((ct - pt : ℤ) : ℚ)| / 3600
          if time_diff_hours = 0 then .ok false
          else
            let distance_km :=
              haversine_distance (c1.1 : ℝ) (c1.2 : ℝ) (c2.1 : ℝ) (c2.2 : ℝ)
            let speed_kmh : ℝ := distance_km / (time_diff_hours : ℝ)
            if (max_speed_kmh : ℝ) < speed_kmh then .ok true else .ok false
    | _, _ => .ok false

/-- Modelled from the spec sentence for the geographic rule: requires a
previous transaction; skip if either country is unknown or the two
timestamps are identical; else the haversine great-circle distance between
the two countries' coordinates divided by the absolute elapsed time in
hours must exceed `max_speed_kmh` for the rule to trigger. Timestamp
normalization is the engine's single parsing boundary, applied after the
skip conditions that need no time, as in the engine. -/
noncomputable def geo_trigger_spec (max_speed_kmh : ℚ) (now : ℤ)
    (tx : Transaction) : Option Transaction → Except String Bool
  | none => .ok false
  | some p =>
    match country_coords tx.country, country_coords p.country with
    | some c2, some c1 =>
      match parse_timestamp now tx.timestamp with
      | .error e => .error e
      | .ok ct =>
        match parse_timestamp now p.timestamp with
        | .error e => .error e
        | .ok pt =>
          if ct = pt then .ok false
          else
            let speed : ℝ :=
              haversine_distance (c1.1 : ℝ) (c1.2 : ℝ) (c2.1 : ℝ) (c2.2 : ℝ) /
                (|(ct : ℝ) - (pt : ℝ)| / 3600)
            if speed > (max_speed_kmh : ℝ) then .ok true else .ok false
    | _, _ => .ok false

end GeoReal

lemma parse_timestamp_of_ts_ok (now : ℤ) (v : TimestampValue) (h : ts_ok v = true) :
    parse_timestamp now v = .ok (tsVal v) := by
  cases v <;> simp [ts_ok] at h <;> rfl

lemma parse_timestamp_now_irrel (n₁ n₂ : ℤ) (v : TimestampValue)
    (h : v ≠ .otherUnparseable) : parse_timestamp n₁ v = parse_timestamp n₂ v := by
  cases v <;> first | rfl | exact absurd rfl h

lemma alookup_aset_self {α : Type} (l : List (String × α)) (k : String) (v : α) :
    alookup (aset l k v) k = some v := by
  induction l with
  | nil => simp [aset, alookup]
  | cons hd tl ih =>
    obtain ⟨k', w⟩ := hd
    by_cases h : k' = k
    · simp [aset, alookup, h]
    · simp [aset, alookup, h, ih]

lemma alookup_aset_ne {α : Type} (l : List (String × α)) (k k' : String) (v : α)
    (h : k' ≠ k) : alookup (aset l k v) k' = alookup l k' := by
  have hne : ¬k = k' := fun hh => h hh.symm
  induction l with
  | nil =>
    simp only [aset, alookup]
    rw [if_neg hne]
  | cons hd tl ih =>
    obtain ⟨k₀, w⟩ := hd
    by_cases h0 : k₀ = k
    · subst h0
      simp only [aset, if_pos rfl, alookup]
      rw [if_neg hne, if_neg hne]
    · simp only [aset, if_neg h0, alookup, ih]

lemma aset_keys_of_found {α : Type} (l : List (String × α)) (k : String) (v w : α)
    (h : alookup l k = some w) : (aset l k v).map Prod.fst = l.map Prod.fst := by
  induction l with
  | nil => simp [alookup] at h
  | cons hd tl ih =>
    obtain ⟨k₀, w₀⟩ := hd
    by_cases h0 : k₀ = k
    · simp [aset, h0]
    · simp only [alookup, if_neg h0] at h
      simp [aset, if_neg h0, ih h]

lemma alookup_mem {α : Type} {l : List (String × α)} {k : String} {v : α}
    (h : alookup l k = some v) : (k, v) ∈ l := by
  induction l with
  | nil => simp [alookup] at h
  | cons hd tl ih =>
    obtain ⟨k₀, w₀⟩ := hd
    by_cases h0 : k₀ = k
    · subst h0
      simp [alookup] at h
      simp [h]
    · simp only [alookup, if_neg h0] at h
      exact List.mem_cons_of_mem _ (ih h)

lemma aset_mem {α : Type} {l : List (String × α)} {k : String} {v : α} {pr : String × α}
    (h : pr ∈ aset l k v) : pr ∈ l ∨ pr = (k, v) := by
  induction l with
  | nil =>
    right
    simpa [aset] using h
  | cons hd tl ih =>
    obtain ⟨k₀, w₀⟩ := hd
    by_cases h0 : k₀ = k
    · simp only [aset, if_pos h0] at h
      rcases List.mem_cons.mp h with h | h
      · right; rw [h, h0]
      · left; exact List.mem_cons_of_mem _ h
    · simp only [aset, if_neg h0] at h
      rcases List.mem_cons.mp h with h | h
      · left; simp [h]
      · rcases ih h with h' | h'
        · left; exact List.mem_cons_of_mem _ h'
        · right; exact h'

lemma severity_weight_ge (s : Severity) : (1 : ℚ) / 5 ≤ severity_weight s := by
  cases s <;> norm_num [severity_weight]

lemma severity_weight_pos (s : Severity) : (0 : ℚ) < severity_weight s := by
  cases s <;> norm_num [severity_weight]

lemma calculate_risk_score_sum_pos (l : List AnomalyRecord) (h : l ≠ []) :
    0 < ((l.map (fun a => severity_weight a.severity * 25)).sum) := by
  refine List.sum_pos _ ?_ (by simp [h])
  intro q hq
  simp only [List.mem_map] at hq
  obtain ⟨a, _, rfl⟩ := hq
  have := severity_weight_pos a.severity
  positivity

lemma calculate_risk_score_pos (l : List AnomalyRecord) :
    0 < calculate_risk_score l ↔ l ≠ [] := by
  unfold calculate_risk_score
  split
  · simp_all
  · next h =>
    simp only [h, iff_true, ne_eq, not_false_iff]
    have hs := calculate_risk_score_sum_pos l h
    split
    · exact hs
    · norm_num

/-- C4: for every ordered list of anomaly records, the risk score is
min(100, Σ severity_weight(severity) × 25) with weights CRITICAL=1.0,
HIGH=0.7, MEDIUM=0.4, LOW=0.2; the empty list scores 0; five CRITICAL
records score exactly 100, not 125. -/
theorem C4_risk_score_formula :
    (∀ l : List AnomalyRecord,
      calculate_risk_score l =
        min 100 ((l.map (fun a => severity_weight a.severity * 25)).sum)) ∧
    calculate_risk_score [] = 0 ∧
    calculate_risk_score (List.replicate 5
      { rule := "unusual_merchant", rdescription := "d", reason := "r",
        severity := Severity.CRITICAL }) = 100 ∧
    severity_weight .CRITICAL = 1 ∧ severity_weight .HIGH = 7 / 10 ∧
    severity_weight .MEDIUM = 2 / 5 ∧ severity_weight .LOW = 1 / 5 := by
  refine ⟨?_, by simp [calculate_risk_score], ?_, by norm_num [severity_weight],
    by norm_num [severity_weight], by norm_num [severity_weight],
    by norm_num [severity_weight]⟩
  · intro l
    cases l with
    | nil => simp [calculate_risk_score]
    | cons a t =>
      simp only [calculate_risk_score, if_neg (List.cons_ne_nil a t)]
      split
      · next hle => rw [min_eq_right hle]
      · next hgt => rw [min_eq_left (le_of_not_le hgt)]
  · with_unfolding_all decide

/-- C7: `update_rule` with an unknown rule id reports the not-found
message, leaves the rule dictionary entirely unchanged and creates no new
rule; with a known rule id it reports success and applies exactly the given
field changes to that rule, leaving every other rule untouched and the set
of rule ids unchanged. -/
theorem C7_update_rule (rules : RulesDict) (rule_name : String)
    (kwargs : List (String × RVal)) :
    (alookup rules rule_name = none →
      update_rule rules rule_name kwargs =
        (rules, "Rule not found: " ++ rule_name)) ∧
    (∀ cfg, alookup rules rule_name = some cfg →
      (update_rule rules rule_name kwargs).2 = "Updated rule: " ++ rule_name ∧
      alookup (update_rule rules rule_name kwargs).1 rule_name =
        some (dict_update cfg kwargs) ∧
      (∀ other, other ≠ rule_name →
        alookup (update_rule rules rule_name kwargs).1 other =
          alookup rules other) ∧
      (update_rule rules rule_name kwargs).1.map Prod.fst =
        rules.map Prod.fst) := by
  constructor
  · intro h
    unfold update_rule
    rw [h]
  · intro cfg h
    unfold update_rule
    rw [h]
    exact ⟨rfl, alookup_aset_self _ _ _,
      fun other ho => alookup_aset_ne _ _ _ _ ho,
      aset_keys_of_found _ _ _ _ h⟩

/-- Witness for C7 at the default rule dictionary: an unknown id leaves it
unchanged with the not-found message; a known id is updated in place. -/
theorem C7_update_rule_witness :
    update_rule default_rules_dict "no_such_rule" [("enabled", RVal.flag false)] =
      (default_rules_dict, "Rule not found: no_such_rule") ∧
    (update_rule default_rules_dict "large_amount"
      [("enabled", RVal.flag false)]).2 = "Updated rule: large_amount" ∧
    alookup (update_rule default_rules_dict "large_amount"
      [("threshold", RVal.num 9000)]).1 "large_amount" =
      some [("threshold", RVal.num 9000), ("enabled", RVal.flag true),
            ("description", RVal.str "Transactions above $5000")] :=
  ⟨(C7_update_rule default_rules_dict "no_such_rule" _).1 rfl,
   ((C7_update_rule default_rules_dict "large_amount" _).2 _ rfl).1,
   ((C7_update_rule default_rules_dict "large_amount" _).2 _ rfl).2.1⟩

/-- A concrete distance function used where the geographic distance value
is irrelevant to the property at hand. -/
def distf0 : ℚ × ℚ → ℚ × ℚ → ℚ := fun _ _ => 0

/-- A transaction whose timestamp is a string not in the expected
`%Y-%m-%d %H:%M:%S` format. -/
def c1_tx_bad : Transaction :=
  ⟨"T1", .strBad "garbage", "A", 100, "US", none⟩

/-- A transaction whose timestamp is an unparseable non-string value (the
`pd.to_datetime` fallback path). -/
def c1_tx_fallback : Transaction :=
  ⟨"T2", .otherUnparseable, "A", 100, "US", none⟩

/-- C1: the claim says an unparseable timestamp — including a string not in
the expected format — never crashes evaluation and falls back to "now".
The code contradicts this: `_parse_timestamp` guards only the non-string
fallback path with try/except, while a malformed string reaches
`datetime.strptime` unguarded and the ValueError aborts
`evaluate_transaction` (first conjunct). The fallback to `now` does apply
to unparseable non-string values, whose evaluation completes with a full
verdict (remaining conjuncts), which is exactly the behaviour the spec
intends for all unparseable timestamps. -/
theorem C1_malformed_string_timestamp_crashes :
    evaluate_transaction distf0 default_rules [] 0 c1_tx_bad none =
      .error "ValueError: time data garbage does not match format" ∧
    parse_timestamp 10800 TimestampValue.otherUnparseable = .ok 10800 ∧
    (evaluate_transaction distf0 default_rules [] 10800 c1_tx_fallback none).isOk
      = true := by
  refine ⟨?_, rfl, ?_⟩
  · with_unfolding_all rfl
  · with_unfolding_all rfl

lemma build_verdict_anomalies (cfg : RulesConfig) (tx : Transaction)
    (r1 r2 r3 r4 r5 r6 : Bool × String) :
    (build_verdict cfg tx r1 r2 r3 r4 r5 r6).anomalies =
      mkRecords "large_amount" cfg.la_description tx r1 ++
      mkRecords "rapid_transactions" cfg.rapid_description tx r2 ++
      mkRecords "odd_hours" cfg.odd_description tx r3 ++
      mkRecords "geographic_impossible" cfg.geo_description tx r4 ++
      mkRecords "suspicious_countries" cfg.susp_description tx r5 ++
      mkRecords "unusual_merchant" cfg.merch_description tx r6 := rfl

lemma build_verdict_is_anomalous (cfg : RulesConfig) (tx : Transaction)
    (r1 r2 r3 r4 r5 r6 : Bool × String) :
    (build_verdict cfg tx r1 r2 r3 r4 r5 r6).is_anomalous =
      decide (0 < (build_verdict cfg tx r1 r2 r3 r4 r5 r6).anomalies.length) := rfl

lemma build_verdict_risk_score (cfg : RulesConfig) (tx : Transaction)
    (r1 r2 r3 r4 r5 r6 : Bool × String) :
    (build_verdict cfg tx r1 r2 r3 r4 r5 r6).risk_score =
      calculate_risk_score (build_verdict cfg tx r1 r2 r3 r4 r5 r6).anomalies := rfl

/-- Inversion of `evaluate_transaction` on the success path: the three
fallible checks returned `ok` and the verdict is `build_verdict` applied to
the six rule results. -/
lemma evaluate_transaction_ok_inv {distf : ℚ × ℚ → ℚ × ℚ → ℚ} {cfg : RulesConfig}
    {hist : History} {now : ℤ} {tx : Transaction} {prev : Option Transaction}
    {v : Verdict} {hist' : History}
    (h : evaluate_transaction distf cfg hist now tx prev = .ok (v, hist')) :
    ∃ b2 s2 r3 r4,
      (if cfg.rapid_enabled then check_rapid_transactions cfg hist now tx
        else .ok (false, "", hist)) = .ok (b2, s2, hist') ∧
      (if cfg.odd_enabled then check_odd_hours cfg now tx
        else .ok (false, "")) = .ok r3 ∧
      (if cfg.geo_enabled then check_geographic_impossible_d distf cfg now tx prev
        else .ok (false, "")) = .ok r4 ∧
      v = build_verdict cfg tx
        (if cfg.la_enabled then check_large_amount cfg tx else (false, ""))
        (b2, s2) r3 r4
        (if cfg.susp_enabled then check_suspicious_country cfg tx else (false, ""))
        (if cfg.merch_enabled then check_unusual_merchant cfg tx else (false, "")) := by
  unfold evaluate_transaction at h
  cases hrap : (if cfg.rapid_enabled then check_rapid_transactions cfg hist now tx
      else .ok (false, "", hist)) with
  | error e => rw [hrap] at h; simp at h
  | ok trip =>
    obtain ⟨b2, s2, hist1⟩ := trip
    rw [hrap] at h
    cases hodd : (if cfg.odd_enabled then check_odd_hours cfg now tx
        else .ok (false, "")) with
    | error e => rw [hodd] at h; simp at h
    | ok r3 =>
      rw [hodd] at h
      cases hgeo : (if cfg.geo_enabled then
          check_geographic_impossible_d distf cfg now tx prev
          else .ok (false, "")) with
      | error e => rw [hgeo] at h; simp at h
      | ok r4 =>
        rw [hgeo] at h
        simp only [Except.ok.injEq, Prod.mk.injEq] at h
        obtain ⟨hv, hh⟩ := h
        subst hh
        exact ⟨b2, s2, r3, r4, rfl, rfl, rfl, hv.symm⟩

/-- C3: for every verdict evaluate returns, being anomalous, having a
strictly positive risk score and having at least one anomaly record are
equivalent. -/
theorem C3_verdict_invariant (distf : ℚ × ℚ → ℚ × ℚ → ℚ) (cfg : RulesConfig)
    (hist : History) (now : ℤ) (tx : Transaction) (prev : Option Transaction)
    (v : Verdict) (hist' : History)
    (h : evaluate_transaction distf cfg hist now tx prev = .ok (v, hist')) :
    (v.is_anomalous = true ↔ 0 < v.risk_score) ∧
    (v.is_anomalous = true ↔ 0 < v.anomalies.length) := by
  obtain ⟨b2, s2, r3, r4, _, _, _, hv⟩ := evaluate_transaction_ok_inv h
  subst hv
  rw [build_verdict_is_anomalous, build_verdict_risk_score]
  constructor
  · rw [decide_eq_true_iff, List.length_pos, calculate_risk_score_pos]
  · rw [decide_eq_true_iff]

/-- A concrete transaction used by several witnesses: account A, amount
100, country US, timestamp epoch second 0 (hour 0, inside odd hours). -/
def w_tx_odd : Transaction := ⟨"T", .pdTs 0, "A", 100, "US", none⟩

/-- The verdict-and-history pair of a successful evaluation (junk pair on
error), used to state witnesses about concrete evaluations. -/
def eval_result (distf : ℚ × ℚ → ℚ × ℚ → ℚ) (cfg : RulesConfig) (hist : History)
    (now : ℤ) (tx : Transaction) (prev : Option Transaction) : Verdict × History :=
  (evaluate_transaction distf cfg hist now tx prev).toOption.getD
    (⟨"", "", "", 0, false, 0, [], [], 0⟩, [])

/-- Witness for C3 at a concrete evaluation (odd-hours triggers, risk 10). -/
theorem C3_verdict_invariant_witness :
    ((eval_result distf0 default_rules [] 0 w_tx_odd none).1.is_anomalous = true ↔
      0 < (eval_result distf0 default_rules [] 0 w_tx_odd none).1.risk_score) ∧
    ((eval_result distf0 default_rules [] 0 w_tx_odd none).1.is_anomalous = true ↔
      0 < (eval_result distf0 default_rules [] 0 w_tx_odd none).1.anomalies.length) :=
  C3_verdict_invariant distf0 default_rules [] 0 w_tx_odd none _ _
    (by with_unfolding_all rfl)

lemma mem_mkRecords {a : AnomalyRecord} {n d : String} {tx : Transaction}
    {r : Bool × String} (h : a ∈ mkRecords n d tx r) :
    a = ⟨n, d, r.2, calculate_severity n tx⟩ := by
  unfold mkRecords at h
  split at h
  · simpa using h
  · simp at h

lemma calculate_severity_shape (n : String) (tx : Transaction) :
    calculate_severity n tx ≠ Severity.LOW ∧
    (2 : ℚ) / 5 ≤ severity_weight (calculate_severity n tx) ∧
    (calculate_severity n tx = Severity.MEDIUM ∨
     calculate_severity n tx = Severity.HIGH ∨
     calculate_severity n tx = Severity.CRITICAL) := by
  unfold calculate_severity
  split_ifs <;> exact ⟨by simp, by norm_num [severity_weight], by simp⟩

lemma build_verdict_mem_severity {cfg : RulesConfig} {tx : Transaction}
    {r1 r2 r3 r4 r5 r6 : Bool × String} {a : AnomalyRecord}
    (h : a ∈ (build_verdict cfg tx r1 r2 r3 r4 r5 r6).anomalies) :
    ∃ n, a.severity = calculate_severity n tx := by
  rw [build_verdict_anomalies] at h
  simp only [List.mem_append] at h
  rcases h with ((((h | h) | h) | h) | h) | h
  · exact ⟨"large_amount", by rw [mem_mkRecords h]⟩
  · exact ⟨"rapid_transactions", by rw [mem_mkRecords h]⟩
  · exact ⟨"odd_hours", by rw [mem_mkRecords h]⟩
  · exact ⟨"geographic_impossible", by rw [mem_mkRecords h]⟩
  · exact ⟨"suspicious_countries", by rw [mem_mkRecords h]⟩
  · exact ⟨"unusual_merchant", by rw [mem_mkRecords h]⟩

lemma calculate_risk_score_ge_ten {l : List AnomalyRecord} (hne : l ≠ [])
    (hw : ∀ a ∈ l, (2 : ℚ) / 5 ≤ severity_weight a.severity) :
    10 ≤ calculate_risk_score l := by
  unfold calculate_risk_score
  rw [if_neg hne]
  have hterm : ∀ q ∈ l.map (fun a => severity_weight a.severity * 25), (10 : ℚ) ≤ q := by
    intro q hq
    simp only [List.mem_map] at hq
    obtain ⟨a, ha, rfl⟩ := hq
    have := hw a ha
    nlinarith
  have hsum : (10 : ℚ) ≤ (l.map (fun a => severity_weight a.severity * 25)).sum := by
    obtain ⟨a, ha⟩ := List.exists_mem_of_ne_nil l hne
    have hmem : severity_weight a.severity * 25 ∈
        l.map (fun a => severity_weight a.severity * 25) :=
      List.mem_map_of_mem _ ha
    refine le_trans (hterm _ hmem) (List.single_le_sum ?_ _ hmem)
    intro q hq
    exact le_trans (by norm_num) (hterm q hq)
  show (10 : ℚ) ≤ if (l.map (fun a => severity_weight a.severity * 25)).sum ≤ 100
    then (l.map (fun a => severity_weight a.severity * 25)).sum else 100
  split
  · exact hsum
  · norm_num

/-- C10: every anomaly record evaluate produces has severity MEDIUM, HIGH
or CRITICAL — never LOW — and hence an anomalous verdict scores at least
10 (the MEDIUM contribution 0.4 × 25). -/
theorem C10_no_low_severity (distf : ℚ × ℚ → ℚ × ℚ → ℚ) (cfg : RulesConfig)
    (hist : History) (now : ℤ) (tx : Transaction) (prev : Option Transaction)
    (v : Verdict) (hist' : History)
    (h : evaluate_transaction distf cfg hist now tx prev = .ok (v, hist')) :
    (∀ a ∈ v.anomalies,
      a.severity ≠ Severity.LOW ∧
      (a.severity = Severity.MEDIUM ∨ a.severity = Severity.HIGH ∨
       a.severity = Severity.CRITICAL)) ∧
    (v.is_anomalous = true → 10 ≤ v.risk_score) := by
  obtain ⟨b2, s2, r3, r4, _, _, _, hv⟩ := evaluate_transaction_ok_inv h
  subst hv
  have hsev : ∀ a ∈ (build_verdict cfg tx
      (if cfg.la_enabled then check_large_amount cfg tx else (false, ""))
      (b2, s2) r3 r4
      (if cfg.susp_enabled then check_suspicious_country cfg tx else (false, ""))
      (if cfg.merch_enabled then check_unusual_merchant cfg tx else (false, ""))).anomalies,
      ∃ n, a.severity = calculate_severity n tx :=
    fun a ha => build_verdict_mem_severity ha
  constructor
  · intro a ha
    obtain ⟨n, hn⟩ := hsev a ha
    rw [hn]
    exact ⟨(calculate_severity_shape n tx).1, (calculate_severity_shape n tx).2.2⟩
  · intro hano
    rw [build_verdict_is_anomalous, decide_eq_true_iff, List.length_pos] at hano
    rw [build_verdict_risk_score]
    refine calculate_risk_score_ge_ten hano ?_
    intro a ha
    obtain ⟨n, hn⟩ := hsev a ha
    rw [hn]
    exact (calculate_severity_shape n tx).2.1

/-- Witness for C10 at a concrete anomalous evaluation: the risk score of
the odd-hours verdict is at least 10. -/
theorem C10_no_low_severity_witness :
    10 ≤ (eval_result distf0 default_rules [] 0 w_tx_odd none).1.risk_score :=
  (C10_no_low_severity distf0 default_rules [] 0 w_tx_odd none _ _
    (by with_unfolding_all rfl)).2 (by with_unfolding_all rfl)

lemma filter_mkRecords_ne (n d : String) (tx : Transaction) (r : Bool × String)
    (target : String) (h : n ≠ target) :
    (mkRecords n d tx r).filter (fun a => a.rule == target) = [] := by
  unfold mkRecords
  split
  · simp [h]
  · rfl

lemma filter_mkRecords_self (n d : String) (tx : Transaction) (r : Bool × String) :
    (mkRecords n d tx r).filter (fun a => a.rule == n) = mkRecords n d tx r := by
  unfold mkRecords
  split
  · simp
  · rfl

/-- C9: with large_amount enabled at the default threshold 5000, every
transaction with amount above 5000 yields exactly one large_amount record,
with severity CRITICAL above 20000, HIGH above 10000, MEDIUM otherwise;
amounts at or below 5000 yield no large_amount record. -/
theorem C9_large_amount_tiering (distf : ℚ × ℚ → ℚ × ℚ → ℚ) (cfg : RulesConfig)
    (hist : History) (now : ℤ) (tx : Transaction) (prev : Option Transaction)
    (v : Verdict) (hist' : History)
    (hen : cfg.la_enabled = true) (hth : cfg.la_threshold = 5000)
    (h : evaluate_transaction distf cfg hist now tx prev = .ok (v, hist')) :
    (5000 < tx.amount →
      (v.anomalies.filter (fun a => a.rule == "large_amount")).map
          (fun a => a.severity) =
        [if 20000 < tx.amount then Severity.CRITICAL
         else if 10000 < tx.amount then Severity.HIGH else Severity.MEDIUM]) ∧
    (tx.amount ≤ 5000 →
      v.anomalies.filter (fun a => a.rule == "large_amount") = []) := by
  obtain ⟨b2, s2, r3, r4, _, _, _, hv⟩ := evaluate_transaction_ok_inv h
  subst hv
  rw [build_verdict_anomalies, hen, if_pos rfl,
    List.filter_append, List.filter_append, List.filter_append, List.filter_append,
    List.filter_append,
    filter_mkRecords_ne "rapid_transactions" cfg.rapid_description tx (b2, s2)
      "large_amount" (by decide),
    filter_mkRecords_ne "odd_hours" cfg.odd_description tx r3 "large_amount" (by decide),
    filter_mkRecords_ne "geographic_impossible" cfg.geo_description tx r4
      "large_amount" (by decide),
    filter_mkRecords_ne "suspicious_countries" cfg.susp_description tx _
      "large_amount" (by decide),
    filter_mkRecords_ne "unusual_merchant" cfg.merch_description tx _
      "large_amount" (by decide),
    filter_mkRecords_self "large_amount" cfg.la_description tx,
    List.append_nil, List.append_nil, List.append_nil, List.append_nil,
    List.append_nil]
  unfold check_large_amount
  rw [hth]
  constructor
  · intro hamt
    rw [if_pos hamt]
    simp [mkRecords, calculate_severity]
  · intro hamt
    rw [if_neg (not_lt.mpr hamt)]
    simp [mkRecords]

/-- A transaction with amount 15000 at an unremarkable hour. -/
def w_tx_large : Transaction := ⟨"T", .pdTs 36000, "A", 15000, "US", none⟩

/-- Witness for C9: amount 15000 yields a single large_amount record of
severity HIGH. -/
theorem C9_large_amount_tiering_witness :
    ((eval_result distf0 default_rules [] 0 w_tx_large none).1.anomalies.filter
        (fun a => a.rule == "large_amount")).map (fun a => a.severity) =
      [if (20000 : ℚ) < 15000 then Severity.CRITICAL
       else if (10000 : ℚ) < 15000 then Severity.HIGH else Severity.MEDIUM] :=
  (C9_large_amount_tiering distf0 default_rules [] 0 w_tx_large none _ _
    rfl rfl (by with_unfolding_all rfl)).1 (by norm_num [w_tx_large])

/-- The default configuration with the rapid_transactions rule disabled. -/
def cfg_no_rapid : RulesConfig := { default_rules with rapid_enabled := false }

/-- A plain transaction at hour 10 (no rule triggers on it). -/
def c2_tx : Transaction := ⟨"T1", .pdTs 36000, "A", 100, "US", none⟩

/-- Counterexample to C2 as stated: with rapid_transactions disabled, a
processed transaction is recorded as the account's previous transaction but
its (timestamp, amount) pair is NOT appended to the trailing window — the
final `transaction_history` is empty — because the append/prune lives
inside `check_rapid_transactions`, which a disabled rule skips entirely. -/
theorem C2_counterexample_window_skipped :
    process_transaction distf0 cfg_no_rapid initialState 36000 c2_tx =
      .ok (⟨"T1", "pd.36000", "A", 100, false, 0, [], [], 0⟩,
           ⟨[("A", c2_tx)], []⟩) := by
  with_unfolding_all rfl

/-- C2 amended: every completed evaluate call records the current
transaction as the account's new previous transaction; the append of
(timestamp, amount) to the account's trailing window with pruning of
entries older than the retention horizon happens exactly when the
rapid_transactions rule is enabled (the update is implemented inside that
rule's check), not unconditionally. -/
theorem C2_history_update (distf : ℚ × ℚ → ℚ × ℚ → ℚ) (cfg : RulesConfig)
    (st : DetectorState) (now : ℤ) (tx : Transaction) (v : Verdict)
    (st' : DetectorState)
    (h : process_transaction distf cfg st now tx = .ok (v, st')) :
    st'.account_history = aset st.account_history tx.account_id tx ∧
    alookup st'.account_history tx.account_id = some tx ∧
    (cfg.rapid_enabled = false → st'.transaction_history = st.transaction_history) ∧
    (cfg.rapid_enabled = true →
      ∀ ts, parse_timestamp now tx.timestamp = .ok ts →
        st'.transaction_history =
          prune_append cfg.rapid_time_window st.transaction_history tx.account_id
            ts tx.amount) := by
  unfold process_transaction at h
  cases hev : evaluate_transaction distf cfg st.transaction_history now tx
      (alookup st.account_history tx.account_id) with
  | error e => rw [hev] at h; simp at h
  | ok p =>
    obtain ⟨v0, hist1⟩ := p
    rw [hev] at h
    simp only [Except.ok.injEq, Prod.mk.injEq] at h
    obtain ⟨hv, hst⟩ := h
    subst hst
    obtain ⟨b2, s2, r3, r4, hrap, _, _, _⟩ := evaluate_transaction_ok_inv hev
    refine ⟨rfl, alookup_aset_self _ _ _, ?_, ?_⟩
    · intro hdis
      rw [hdis] at hrap
      simp only [Bool.false_eq_true, if_false, Except.ok.injEq, Prod.mk.injEq] at hrap
      exact hrap.2.2.symm
    · intro hen ts hts
      rw [hen, if_pos rfl] at hrap
      unfold check_rapid_transactions at hrap
      rw [hts] at hrap
      dsimp only at hrap
      split at hrap <;>
      · simp only [Except.ok.injEq, Prod.mk.injEq] at hrap
        exact hrap.2.2.symm

/-- The verdict-and-state pair of a successful process_transaction call
(junk pair on error), used to state witnesses. -/
def proc_result (distf : ℚ × ℚ → ℚ × ℚ → ℚ) (cfg : RulesConfig)
    (st : DetectorState) (now : ℤ) (tx : Transaction) : Verdict × DetectorState :=
  (process_transaction distf cfg st now tx).toOption.getD
    (⟨"", "", "", 0, false, 0, [], [], 0⟩, initialState)

/-- Witness for C2 amended at a concrete call with rapid enabled. -/
theorem C2_history_update_witness :
    alookup (proc_result distf0 default_rules initialState 0 w_tx_odd).2.account_history
      "A" = some w_tx_odd ∧
    (proc_result distf0 default_rules initialState 0 w_tx_odd).2.transaction_history =
      prune_append default_rules.rapid_time_window initialState.transaction_history
        "A" 0 100 :=
  have h : process_transaction distf0 default_rules initialState 0 w_tx_odd =
      .ok ((proc_result distf0 default_rules initialState 0 w_tx_odd).1,
           (proc_result distf0 default_rules initialState 0 w_tx_odd).2) := by
    with_unfolding_all rfl
  ⟨(C2_history_update distf0 default_rules initialState 0 w_tx_odd _ _ h).2.1,
   (C2_history_update distf0 default_rules initialState 0 w_tx_odd _ _ h).2.2.2
     rfl 0 rfl⟩

/-- C6: `check_geographic_impossible` (with the real-valued haversine
formula of `_haversine_distance`, Earth radius 6371 km) never triggers
without a previous transaction, with an unknown country on either side, or
with identical timestamps; otherwise it triggers exactly when the haversine
distance between the two countries' coordinates divided by the absolute
elapsed hours exceeds `max_speed_kmh` — stated as equality with
`geo_trigger_spec`, the rule written out in the spec's words. -/
theorem C6_geographic_rule_spec (maxs : ℚ) (now : ℤ) (tx : Transaction)
    (prev : Option Transaction) :
    check_geographic_impossible maxs now tx prev = geo_trigger_spec maxs now tx prev := by
  cases prev with
  | none => rfl
  | some p =>
    simp only [check_geographic_impossible, geo_trigger_spec]
    cases h2 : country_coords tx.country with
    | none => rfl
    | some c2 =>
      cases h1 : country_coords p.country with
      | none => rfl
      | some c1 =>
        cases hct : parse_timestamp now tx.timestamp with
        | error e => rfl
        | ok ct =>
          cases hpt : parse_timestamp now p.timestamp with
          | error e => rfl
          | ok pt =>
            dsimp only
            by_cases hc : ct = pt
            · subst hc
              norm_num
            · have hq : ¬(|((ct - pt : ℤ) : ℚ)| / 3600 = (0 : ℚ)) := by
                simp [div_eq_zero_iff, abs_eq_zero, sub_eq_zero, hc]
              rw [if_neg hq, if_neg hc]
              have hsp : (((|((ct - pt : ℤ) : ℚ)| / 3600 : ℚ)) : ℝ) =
                  |(ct : ℝ) - (pt : ℝ)| / 3600 := by
                push_cast
                ring
              rw [hsp]

/-- The fixed rule iteration order of the default rule dictionary. -/
def rule_order : List String :=
  ["large_amount", "rapid_transactions", "odd_hours", "geographic_impossible",
   "suspicious_countries", "unusual_merchant"]

lemma mkNames_map_mkRecords (n d : String) (tx : Transaction) (r : Bool × String) :
    (mkRecords n d tx r).map (fun a => a.rule) = mkNames n r := by
  cases hr : r.1 <;> simp [mkRecords, mkNames, hr]

lemma build_verdict_triggered (cfg : RulesConfig) (tx : Transaction)
    (r1 r2 r3 r4 r5 r6 : Bool × String) :
    (build_verdict cfg tx r1 r2 r3 r4 r5 r6).triggered_rules =
      mkNames "large_amount" r1 ++ mkNames "rapid_transactions" r2 ++
      mkNames "odd_hours" r3 ++ mkNames "geographic_impossible" r4 ++
      mkNames "suspicious_countries" r5 ++ mkNames "unusual_merchant" r6 := rfl

lemma build_verdict_triggered_eq (cfg : RulesConfig) (tx : Transaction)
    (r1 r2 r3 r4 r5 r6 : Bool × String) :
    (build_verdict cfg tx r1 r2 r3 r4 r5 r6).triggered_rules =
      (build_verdict cfg tx r1 r2 r3 r4 r5 r6).anomalies.map (fun a => a.rule) := by
  rw [build_verdict_triggered, build_verdict_anomalies]
  simp [List.map_append, mkNames_map_mkRecords]

lemma sublist_rule_order (b1 b2 b3 b4 b5 b6 : Bool) :
    ((if b1 then ["large_amount"] else []) ++
     (if b2 then ["rapid_transactions"] else []) ++
     (if b3 then ["odd_hours"] else []) ++
     (if b4 then ["geographic_impossible"] else []) ++
     (if b5 then ["suspicious_countries"] else []) ++
     (if b6 then ["unusual_merchant"] else [])).Sublist rule_order := by
  cases b1 <;> cases b2 <;> cases b3 <;> cases b4 <;> cases b5 <;> cases b6 <;> decide

lemma build_verdict_rules_sublist (cfg : RulesConfig) (tx : Transaction)
    (r1 r2 r3 r4 r5 r6 : Bool × String) :
    ((build_verdict cfg tx r1 r2 r3 r4 r5 r6).anomalies.map
      (fun a => a.rule)).Sublist rule_order := by
  rw [build_verdict_anomalies]
  simp only [List.map_append, mkNames_map_mkRecords]
  have h := sublist_rule_order r1.1 r2.1 r3.1 r4.1 r5.1 r6.1
  simpa [mkNames] using h

lemma check_rapid_now_irrel (cfg : RulesConfig) (hist : History) (n1 n2 : ℤ)
    (tx : Transaction) (h : tx.timestamp ≠ .otherUnparseable) :
    check_rapid_transactions cfg hist n1 tx = check_rapid_transactions cfg hist n2 tx := by
  unfold check_rapid_transactions
  rw [parse_timestamp_now_irrel n1 n2 _ h]

lemma check_odd_now_irrel (cfg : RulesConfig) (n1 n2 : ℤ) (tx : Transaction)
    (h : tx.timestamp ≠ .otherUnparseable) :
    check_odd_hours cfg n1 tx = check_odd_hours cfg n2 tx := by
  unfold check_odd_hours
  rw [parse_timestamp_now_irrel n1 n2 _ h]

lemma check_geo_now_irrel (distf : ℚ × ℚ → ℚ × ℚ → ℚ) (cfg : RulesConfig)
    (n1 n2 : ℤ) (tx : Transaction) (prev : Option Transaction)
    (htx : tx.timestamp ≠ .otherUnparseable)
    (hp : ∀ p, prev = some p → p.timestamp ≠ .otherUnparseable) :
    check_geographic_impossible_d distf cfg n1 tx prev =
      check_geographic_impossible_d distf cfg n2 tx prev := by
  cases prev with
  | none => rfl
  | some p =>
    simp only [check_geographic_impossible_d]
    rw [parse_timestamp_now_irrel n1 n2 _ htx,
      parse_timestamp_now_irrel n1 n2 _ (hp p rfl)]

lemma evaluate_now_irrel (distf : ℚ × ℚ → ℚ × ℚ → ℚ) (cfg : RulesConfig)
    (hist : History) (n1 n2 : ℤ) (tx : Transaction) (prev : Option Transaction)
    (htx : tx.timestamp ≠ .otherUnparseable)
    (hp : ∀ p, prev = some p → p.timestamp ≠ .otherUnparseable) :
    evaluate_transaction distf cfg hist n1 tx prev =
      evaluate_transaction distf cfg hist n2 tx prev := by
  unfold evaluate_transaction
  rw [check_rapid_now_irrel cfg hist n1 n2 tx htx,
    check_odd_now_irrel cfg n1 n2 tx htx,
    check_geo_now_irrel distf cfg n1 n2 tx prev htx hp]

lemma process_transaction_ok_state {distf : ℚ × ℚ → ℚ × ℚ → ℚ} {cfg : RulesConfig}
    {st : DetectorState} {now : ℤ} {tx : Transaction} {v : Verdict}
    {st1 : DetectorState}
    (h : process_transaction distf cfg st now tx = .ok (v, st1)) :
    st1.account_history = aset st.account_history tx.account_id tx := by
  unfold process_transaction at h
  cases hev : evaluate_transaction distf cfg st.transaction_history now tx
      (alookup st.account_history tx.account_id) with
  | error e => rw [hev] at h; simp at h
  | ok p =>
    obtain ⟨v0, hist1⟩ := p
    rw [hev] at h
    simp only [Except.ok.injEq, Prod.mk.injEq] at h
    rw [← h.2]

lemma process_transaction_ok_verdict {distf : ℚ × ℚ → ℚ × ℚ → ℚ} {cfg : RulesConfig}
    {st : DetectorState} {now : ℤ} {tx : Transaction} {v : Verdict}
    {st1 : DetectorState}
    (h : process_transaction distf cfg st now tx = .ok (v, st1)) :
    ∃ r1 r2 r3 r4 r5 r6, v = build_verdict cfg tx r1 r2 r3 r4 r5 r6 := by
  unfold process_transaction at h
  cases hev : evaluate_transaction distf cfg st.transaction_history now tx
      (alookup st.account_history tx.account_id) with
  | error e => rw [hev] at h; simp at h
  | ok p =>
    obtain ⟨v0, hist1⟩ := p
    rw [hev] at h
    simp only [Except.ok.injEq, Prod.mk.injEq] at h
    obtain ⟨b2, s2, r3, r4, _, _, _, hv⟩ := evaluate_transaction_ok_inv hev
    exact ⟨_, _, _, _, _, _, h.1 ▸ hv⟩

lemma process_now_irrel (distf : ℚ × ℚ → ℚ × ℚ → ℚ) (cfg : RulesConfig)
    (st : DetectorState) (n1 n2 : ℤ) (tx : Transaction)
    (htx : tx.timestamp ≠ .otherUnparseable)
    (hst : ∀ pr ∈ st.account_history, pr.2.timestamp ≠ .otherUnparseable) :
    process_transaction distf cfg st n1 tx = process_transaction distf cfg st n2 tx := by
  unfold process_transaction
  rw [evaluate_now_irrel distf cfg st.transaction_history n1 n2 tx
    (alookup st.account_history tx.account_id) htx
    (fun p hp => hst (tx.account_id, p) (alookup_mem hp))]

lemma process_batch_now_irrel (distf : ℚ × ℚ → ℚ × ℚ → ℚ) (cfg : RulesConfig) :
    ∀ (txs : List Transaction) (st : DetectorState) (n1s n2s : ℕ → ℤ),
      (∀ tx ∈ txs, tx.timestamp ≠ .otherUnparseable) →
      (∀ pr ∈ st.account_history, pr.2.timestamp ≠ .otherUnparseable) →
      process_batch distf cfg n1s st txs = process_batch distf cfg n2s st txs := by
  intro txs
  induction txs with
  | nil => intro st n1s n2s _ _; rfl
  | cons tx rest ih =>
    intro st n1s n2s htxs hst
    unfold process_batch
    rw [process_now_irrel distf cfg st (n1s 0) (n2s 0) tx
      (htxs tx (by simp)) hst]
    cases hpt : process_transaction distf cfg st (n2s 0) tx with
    | error e => rfl
    | ok p =>
      obtain ⟨v, st1⟩ := p
      have hst1 : ∀ pr ∈ st1.account_history, pr.2.timestamp ≠ .otherUnparseable := by
        intro pr hpr
        rw [process_transaction_ok_state hpt] at hpr
        rcases aset_mem hpr with h | h
        · exact hst pr h
        · rw [h]
          exact htxs tx (by simp)
      dsimp only
      rw [ih st1 (fun i => n1s (i + 1)) (fun i => n2s (i + 1))
        (fun t ht => htxs t (List.mem_cons_of_mem _ ht)) hst1]

lemma process_batch_verdict_shape (distf : ℚ × ℚ → ℚ × ℚ → ℚ) (cfg : RulesConfig) :
    ∀ (txs : List Transaction) (st : DetectorState) (ns : ℕ → ℤ)
      (vs : List Verdict) (st' : DetectorState),
      process_batch distf cfg ns st txs = .ok (vs, st') →
      ∀ v ∈ vs, v.triggered_rules = v.anomalies.map (fun a => a.rule) ∧
        (v.anomalies.map (fun a => a.rule)).Sublist rule_order := by
  intro txs
  induction txs with
  | nil =>
    intro st ns vs st' h v hv
    unfold process_batch at h
    simp only [Except.ok.injEq, Prod.mk.injEq] at h
    rw [← h.1] at hv
    simp at hv
  | cons tx rest ih =>
    intro st ns vs st' h v hv
    unfold process_batch at h
    cases hpt : process_transaction distf cfg st (ns 0) tx with
    | error e => rw [hpt] at h; simp at h
    | ok p =>
      obtain ⟨v0, st1⟩ := p
      rw [hpt] at h
      dsimp only at h
      cases hb : process_batch distf cfg (fun i => ns (i + 1)) st1 rest with
      | error e => rw [hb] at h; simp at h
      | ok q =>
        obtain ⟨vs1, st2⟩ := q
        rw [hb] at h
        simp only [Except.ok.injEq, Prod.mk.injEq] at h
        rw [← h.1] at hv
        rcases List.mem_cons.mp hv with hv | hv
        · obtain ⟨r1, r2, r3, r4, r5, r6, hbv⟩ := process_transaction_ok_verdict hpt
          rw [hv, hbv]
          exact ⟨build_verdict_triggered_eq cfg tx r1 r2 r3 r4 r5 r6,
            build_verdict_rules_sublist cfg tx r1 r2 r3 r4 r5 r6⟩
        · exact ih st1 (fun i => ns (i + 1)) vs1 st2 hb v hv

/-- C8 amended: replaying the same finite transaction sequence from fresh
engine state yields identical verdict sequences — in particular the run is
independent of the wall clock (`datetime.now()` values) — provided no
transaction's timestamp takes the unparseable fallback path, whose
substituted "now" depends on the clock; and in every verdict the anomaly
records appear in the fixed declaration order of the rule set
(`rule_order`), with `triggered_rules` listing exactly the records' rule
ids in that order. -/
theorem C8_replay_deterministic (distf : ℚ × ℚ → ℚ × ℚ → ℚ) (cfg : RulesConfig)
    (txs : List Transaction) (n1s n2s : ℕ → ℤ)
    (h : ∀ tx ∈ txs, tx.timestamp ≠ TimestampValue.otherUnparseable) :
    process_batch distf cfg n1s initialState txs =
      process_batch distf cfg n2s initialState txs ∧
    (∀ vs st', process_batch distf cfg n1s initialState txs = .ok (vs, st') →
      ∀ v ∈ vs, v.triggered_rules = v.anomalies.map (fun a => a.rule) ∧
        (v.anomalies.map (fun a => a.rule)).Sublist rule_order) := by
  constructor
  · exact process_batch_now_irrel distf cfg txs initialState n1s n2s h
      (by intro pr hpr; simp [initialState] at hpr)
  · intro vs st' hok
    exact process_batch_verdict_shape distf cfg txs initialState n1s vs st' hok

/-- A transaction whose timestamp takes the `datetime.now()` fallback. -/
def c8_tx : Transaction := ⟨"T", .otherUnparseable, "A", 100, "US", none⟩

/-- Counterexample to C8 as stated: for a transaction whose timestamp is
unparseable, the substituted "now" is the wall clock, so replaying the same
one-element sequence from fresh state at 3 AM versus noon yields different
verdicts (odd_hours triggers only at 3 AM) — the two replays are not
identical. -/
theorem C8_counterexample_clock_leaks :
    (process_batch distf0 default_rules (fun _ => 10800) initialState
        [c8_tx]).toOption.map (fun p => p.1.map (fun v => v.triggered_rules)) ≠
      (process_batch distf0 default_rules (fun _ => 43200) initialState
        [c8_tx]).toOption.map (fun p => p.1.map (fun v => v.triggered_rules)) := by
  with_unfolding_all decide

/-- Witness for C8 amended: a parseable-timestamp batch evaluated under two
different clocks gives identical results. -/
theorem C8_replay_deterministic_witness :
    process_batch distf0 default_rules (fun _ => 111) initialState [c2_tx] =
      process_batch distf0 default_rules (fun _ => 222) initialState [c2_tx] :=
  (C8_replay_deterministic distf0 default_rules [c2_tx] (fun _ => 111)
    (fun _ => 222)
    (by intro tx htx; simp only [List.mem_singleton] at htx; subst htx; simp [c2_tx])).1

/-- Modelled from the claim for rapid_transactions: the number of the
listed timestamps that fall within the trailing window (t - window, t] of
the current timestamp t. -/
def trailing_window_count (stamps : List ℤ) (t window : ℤ) : ℕ :=
  (stamps.filter (fun u => t - window < u ∧ u ≤ t)).length

/-- Modelled from the claim for rapid_transactions: for each position k of
the timestamp sequence, whether the count of timestamps among the first
k+1 that fall within the trailing 300-second window of the k-th timestamp
(the current transaction included) reaches the threshold 3. -/
def rapid_flags_spec (stamps : List ℤ) : List Bool :=
  (List.range stamps.length).map (fun k =>
    decide (3 ≤ trailing_window_count (stamps.take (k + 1)) (stamps.getD k 0) 300))

/-- One step of the window state of `check_rapid_transactions`: prune to
entries strictly newer than ts - window, then append (ts, amount). -/
def rapid_step (window : ℤ) (w : List (ℤ × ℚ)) (ts : ℤ) (amt : ℚ) :
    List (ℤ × ℚ) :=
  w.filter (fun p => ts - window < p.1) ++ [(ts, amt)]

lemma prune_append_eq (window : ℤ) (hist : History) (acct : String) (ts : ℤ)
    (amt : ℚ) :
    prune_append window hist acct ts amt =
      aset hist acct (rapid_step window ((alookup hist acct).getD []) ts amt) := rfl

/-- The window after folding `rapid_step` over a sequence of entries. -/
def foldWindow (window : ℤ) (w : List (ℤ × ℚ)) : List (ℤ × ℚ) → List (ℤ × ℚ)
  | [] => w
  | e :: rest => foldWindow window (rapid_step window w e.1 e.2) rest

/-- The per-step trigger flags of the rapid rule over a sequence of
entries, starting from window `w`. -/
def foldFlags (window : ℤ) (threshold : ℕ) (w : List (ℤ × ℚ)) :
    List (ℤ × ℚ) → List Bool
  | [] => []
  | e :: rest =>
    decide (threshold ≤ (rapid_step window w e.1 e.2).length) ::
      foldFlags window threshold (rapid_step window w e.1 e.2) rest

lemma foldWindow_append (window : ℤ) :
    ∀ (es fs : List (ℤ × ℚ)) (w : List (ℤ × ℚ)),
      foldWindow window w (es ++ fs) = foldWindow window (foldWindow window w es) fs := by
  intro es
  induction es with
  | nil => intro fs w; rfl
  | cons e rest ih => intro fs w; simpa [foldWindow] using ih fs _

lemma foldFlags_append (window : ℤ) (threshold : ℕ) :
    ∀ (es fs : List (ℤ × ℚ)) (w : List (ℤ × ℚ)),
      foldFlags window threshold w (es ++ fs) =
        foldFlags window threshold w es ++
          foldFlags window threshold (foldWindow window w es) fs := by
  intro es
  induction es with
  | nil => intro fs w; rfl
  | cons e rest ih => intro fs w; simpa [foldFlags, foldWindow] using ih fs _

/-- Under per-entry nondecreasing timestamps, the window retained after
folding the whole sequence is exactly the entries newer than the last
timestamp minus the window. -/
lemma foldWindow_closed (window : ℤ) (hw : 0 < window) :
    ∀ (entries : List (ℤ × ℚ)),
      entries.Pairwise (fun p q => p.1 ≤ q.1) →
      ∀ hne : entries ≠ [],
        foldWindow window [] entries =
          entries.filter (fun p => (entries.getLast hne).1 - window < p.1) := by
  intro entries
  induction entries using List.reverseRecOn with
  | nil => intro _ hne; exact absurd rfl hne
  | append_singleton es e ih =>
    intro hmono hne
    rw [foldWindow_append]
    by_cases hes : es = []
    · subst hes
      show rapid_step window [] e.1 e.2 = _
      simp [rapid_step, List.getLast_append, sub_lt_self _ hw]
    · have hne' : es ≠ [] := hes
      obtain ⟨hmes, -, hbound⟩ := List.pairwise_append.mp hmono
      have hlast_le : (es.getLast hne').1 ≤ e.1 :=
        hbound _ (List.getLast_mem hne') e (by simp)
      have hstep : foldWindow window (foldWindow window [] es) [e] =
          rapid_step window (foldWindow window [] es) e.1 e.2 := rfl
      rw [hstep, ih hmes hne']
      unfold rapid_step
      rw [List.filter_filter]
      have hfc : ∀ p ∈ es,
          (decide (e.1 - window < p.1) && decide ((es.getLast hne').1 - window < p.1)) =
            decide (e.1 - window < p.1) := by
        intro p _
        by_cases hp : e.1 - window < p.1
        · have : (es.getLast hne').1 - window < p.1 := by
            have := sub_le_sub_right hlast_le window
            omega
          simp [hp, this]
        · simp [hp]
      rw [List.filter_congr hfc]
      rw [List.getLast_append]
      rw [List.filter_append]
      have he : (e.1 - window < e.1) := sub_lt_self _ hw
      simp [he]

lemma rapid_flags_spec_append (ss : List ℤ) (t : ℤ) :
    rapid_flags_spec (ss ++ [t]) =
      rapid_flags_spec ss ++
        [decide (3 ≤ trailing_window_count (ss ++ [t]) t 300)] := by
  unfold rapid_flags_spec
  rw [List.length_append, List.length_singleton, List.range_succ, List.map_append]
  congr 1
  · apply List.map_congr_left
    intro k hk
    rw [List.mem_range] at hk
    have h1 : (ss ++ [t]).take (k + 1) = ss.take (k + 1) :=
      List.take_append_of_le_length hk
    have h2 : (ss ++ [t]).getD k 0 = ss.getD k 0 := by
      unfold List.getD
      rw [List.get?_append hk]
    rw [h1, h2]
  · have h1 : (ss ++ [t]).take (ss.length + 1) = ss ++ [t] := by
      apply List.take_of_length_le
      simp
    have h2 : (ss ++ [t]).getD ss.length 0 = t := by
      unfold List.getD
      rw [List.get?_append_right (le_refl _)]
      simp
    rw [List.map_singleton, h1, h2]

/-- Under nondecreasing timestamps, the engine's per-step rapid flags from
the empty window coincide with the claim's trailing-window counts. -/
lemma foldFlags_eq_spec :
    ∀ (entries : List (ℤ × ℚ)),
      entries.Pairwise (fun p q => p.1 ≤ q.1) →
      foldFlags 300 3 [] entries = rapid_flags_spec (entries.map Prod.fst) := by
  intro entries
  induction entries using List.reverseRecOn with
  | nil => intro _; rfl
  | append_singleton es e ih =>
    intro hmono
    obtain ⟨hmes, -, hbound⟩ := List.pairwise_append.mp hmono
    rw [foldFlags_append, List.map_append, List.map_singleton,
      rapid_flags_spec_append, ih hmes]
    congr 1
    show [decide (3 ≤ (rapid_step 300 (foldWindow 300 [] es) e.1 e.2).length)] = _
    have hkey : (rapid_step 300 (foldWindow 300 [] es) e.1 e.2).length =
        trailing_window_count (es.map Prod.fst ++ [e.1]) e.1 300 := by
      have hne : es ++ [e] ≠ [] := by simp
      have hfw : rapid_step 300 (foldWindow 300 [] es) e.1 e.2 =
          foldWindow 300 [] (es ++ [e]) := by
        rw [foldWindow_append]
        rfl
      rw [hfw, foldWindow_closed 300 (by norm_num) (es ++ [e]) hmono hne]
      rw [List.getLast_append]
      unfold trailing_window_count
      have hmem : ∀ p ∈ es ++ [e], p.1 ≤ e.1 := by
        intro p hp
        rcases List.mem_append.mp hp with hp | hp
        · exact hbound _ hp e (by simp)
        · rw [List.mem_singleton.mp hp]
      have hms : es.map Prod.fst ++ [e.1] = (es ++ [e]).map Prod.fst := by
        rw [List.map_append, List.map_singleton]
      rw [hms]
      rw [List.filter_map]
      rw [List.length_map]
      apply congrArg
      apply List.filter_congr
      intro p hp
      have hle : p.1 ≤ e.1 := hmem p hp
      by_cases h : e.1 - 300 < p.1
      · simp [Function.comp, h, hle]
      · simp [Function.comp, h]
    rw [hkey]

lemma build_verdict_contains_rapid (cfg : RulesConfig) (tx : Transaction)
    (r1 r2 r3 r4 r5 r6 : Bool × String) :
    (build_verdict cfg tx r1 r2 r3 r4 r5 r6).triggered_rules.contains
      "rapid_transactions" = r2.1 := by
  obtain ⟨b1, s1⟩ := r1
  obtain ⟨b2, s2⟩ := r2
  obtain ⟨b3, s3⟩ := r3
  obtain ⟨b4, s4⟩ := r4
  obtain ⟨b5, s5⟩ := r5
  obtain ⟨b6, s6⟩ := r6
  cases b1 <;> cases b2 <;> cases b3 <;> cases b4 <;> cases b5 <;> cases b6 <;> rfl

lemma check_rapid_result (hist : History) (now : ℤ) (tx : Transaction)
    (hok : ts_ok tx.timestamp = true) :
    ∃ s2, check_rapid_transactions default_rules hist now tx =
      .ok (decide (3 ≤ (rapid_step 300 ((alookup hist tx.account_id).getD [])
              (tsVal tx.timestamp) tx.amount).length), s2,
           prune_append 300 hist tx.account_id (tsVal tx.timestamp) tx.amount) := by
  unfold check_rapid_transactions
  rw [parse_timestamp_of_ts_ok now _ hok]
  simp only [default_rules]
  have hn : (alookup (prune_append 300 hist tx.account_id (tsVal tx.timestamp)
      tx.amount) tx.account_id).getD [] =
      rapid_step 300 ((alookup hist tx.account_id).getD []) (tsVal tx.timestamp)
        tx.amount := by
    rw [prune_append_eq, alookup_aset_self]
    rfl
  rw [hn]
  split
  · next h => exact ⟨_, by rw [decide_eq_true h]⟩
  · next h => exact ⟨"", by rw [decide_eq_false h]⟩

lemma check_odd_ok (now : ℤ) (tx : Transaction) (hok : ts_ok tx.timestamp = true) :
    ∃ r3, check_odd_hours default_rules now tx = .ok r3 := by
  unfold check_odd_hours
  rw [parse_timestamp_of_ts_ok now _ hok]
  dsimp only
  by_cases h1 : (default_rules.odd_start_hour ≤ 23 ∧
      default_rules.odd_start_hour ≤ hour_of (tsVal tx.timestamp))
  · exact ⟨_, by rw [if_pos h1]⟩
  · by_cases h2 : ((0 : ℤ) ≤ default_rules.odd_end_hour ∧
        hour_of (tsVal tx.timestamp) ≤ default_rules.odd_end_hour)
    · exact ⟨_, by rw [if_neg h1, if_pos h2]⟩
    · exact ⟨_, by rw [if_neg h1, if_neg h2]⟩

lemma check_geo_ok (distf : ℚ × ℚ → ℚ × ℚ → ℚ) (cfg : RulesConfig) (now : ℤ)
    (tx : Transaction) (prev : Option Transaction)
    (htx : ts_ok tx.timestamp = true)
    (hp : ∀ p, prev = some p → ts_ok p.timestamp = true) :
    ∃ r4, check_geographic_impossible_d distf cfg now tx prev = .ok r4 := by
  cases prev with
  | none => exact ⟨_, rfl⟩
  | some p =>
    simp only [check_geographic_impossible_d]
    cases h2 : country_coords tx.country with
    | none => exact ⟨_, rfl⟩
    | some c2 =>
      cases h1 : country_coords p.country with
      | none => exact ⟨_, rfl⟩
      | some c1 =>
        rw [parse_timestamp_of_ts_ok now _ htx,
          parse_timestamp_of_ts_ok now _ (hp p rfl)]
        dsimp only
        by_cases hz : (|((tsVal tx.timestamp - tsVal p.timestamp : ℤ) : ℚ)| / 3600
            = (0 : ℚ))
        · exact ⟨_, by rw [if_pos hz]⟩
        · by_cases hs : (cfg.geo_max_speed_kmh <
              distf c1 c2 / (|((tsVal tx.timestamp - tsVal p.timestamp : ℤ) : ℚ)| / 3600))
          · exact ⟨_, by rw [if_neg hz, if_pos hs]⟩
          · exact ⟨_, by rw [if_neg hz, if_neg hs]⟩

lemma evaluate_default_ok (distf : ℚ × ℚ → ℚ × ℚ → ℚ) (hist : History) (now : ℤ)
    (tx : Transaction) (prev : Option Transaction)
    (htx : ts_ok tx.timestamp = true)
    (hp : ∀ p, prev = some p → ts_ok p.timestamp = true) :
    ∃ s2 r3 r4,
      evaluate_transaction distf default_rules hist now tx prev =
        .ok (build_verdict default_rules tx
              (check_large_amount default_rules tx)
              (decide (3 ≤ (rapid_step 300 ((alookup hist tx.account_id).getD [])
                 (tsVal tx.timestamp) tx.amount).length), s2)
              r3 r4
              (check_suspicious_country default_rules tx)
              (check_unusual_merchant default_rules tx),
             prune_append 300 hist tx.account_id (tsVal tx.timestamp) tx.amount) := by
  obtain ⟨s2, hrap⟩ := check_rapid_result hist now tx htx
  obtain ⟨r3, hodd⟩ := check_odd_ok now tx htx
  obtain ⟨r4, hgeo⟩ := check_geo_ok distf default_rules now tx prev htx hp
  refine ⟨s2, r3, r4, ?_⟩
  unfold evaluate_transaction
  rw [hrap, hodd, hgeo]
  rfl

lemma process_default_ok (distf : ℚ × ℚ → ℚ × ℚ → ℚ) (st : DetectorState)
    (now : ℤ) (tx : Transaction)
    (htx : ts_ok tx.timestamp = true)
    (hacc : ∀ pr ∈ st.account_history, ts_ok pr.2.timestamp = true) :
    ∃ v st1, process_transaction distf default_rules st now tx = .ok (v, st1) ∧
      v.triggered_rules.contains "rapid_transactions" =
        decide (3 ≤ (rapid_step 300
          ((alookup st.transaction_history tx.account_id).getD [])
          (tsVal tx.timestamp) tx.amount).length) ∧
      st1 = ⟨aset st.account_history tx.account_id tx,
             prune_append 300 st.transaction_history tx.account_id
               (tsVal tx.timestamp) tx.amount⟩ := by
  obtain ⟨s2, r3, r4, hev⟩ := evaluate_default_ok distf st.transaction_history now tx
    (alookup st.account_history tx.account_id) htx
    (fun p hp => hacc (tx.account_id, p) (alookup_mem hp))
  refine ⟨build_verdict default_rules tx (check_large_amount default_rules tx)
      (decide (3 ≤ (rapid_step 300
        ((alookup st.transaction_history tx.account_id).getD [])
        (tsVal tx.timestamp) tx.amount).length), s2) r3 r4
      (check_suspicious_country default_rules tx)
      (check_unusual_merchant default_rules tx),
    ⟨aset st.account_history tx.account_id tx,
     prune_append 300 st.transaction_history tx.account_id (tsVal tx.timestamp)
       tx.amount⟩, ?_, ?_, rfl⟩
  · unfold process_transaction
    rw [hev]
  · rw [build_verdict_contains_rapid]

lemma batch_rapid_bridge (distf : ℚ × ℚ → ℚ × ℚ → ℚ) (a : String) :
    ∀ (txs : List Transaction) (nows : ℕ → ℤ) (st : DetectorState)
      (w : List (ℤ × ℚ)),
      (∀ tx ∈ txs, tx.account_id = a) →
      (∀ tx ∈ txs, ts_ok tx.timestamp = true) →
      (∀ pr ∈ st.account_history, ts_ok pr.2.timestamp = true) →
      (alookup st.transaction_history a).getD [] = w →
      ∃ vs st',
        process_batch distf default_rules nows st txs = .ok (vs, st') ∧
        vs.map (fun v => v.triggered_rules.contains "rapid_transactions") =
          foldFlags 300 3 w (txs.map (fun tx => (tsVal tx.timestamp, tx.amount))) := by
  intro txs
  induction txs with
  | nil => intro nows st w _ _ _ _; exact ⟨[], st, rfl, rfl⟩
  | cons tx rest ih =>
    intro nows st w hacct hok hacc hw
    have hatx : tx.account_id = a := hacct tx (by simp)
    obtain ⟨v, st1, hpt, hflag, hst1⟩ :=
      process_default_ok distf st (nows 0) tx (hok tx (by simp)) hacc
    subst hst1
    rw [hatx, hw] at hflag
    have hacc1 : ∀ pr ∈ (aset st.account_history tx.account_id tx),
        ts_ok pr.2.timestamp = true := by
      intro pr hpr
      rcases aset_mem hpr with h | h
      · exact hacc pr h
      · rw [h]
        exact hok tx (by simp)
    have hw1 : (alookup (prune_append 300 st.transaction_history tx.account_id
        (tsVal tx.timestamp) tx.amount) a).getD [] =
        rapid_step 300 w (tsVal tx.timestamp) tx.amount := by
      rw [hatx, prune_append_eq, alookup_aset_self]
      rw [hw]
      rfl
    obtain ⟨vs1, st2, hb, hflags⟩ := ih (fun i => nows (i + 1))
      ⟨aset st.account_history tx.account_id tx,
       prune_append 300 st.transaction_history tx.account_id
         (tsVal tx.timestamp) tx.amount⟩
      (rapid_step 300 w (tsVal tx.timestamp) tx.amount)
      (fun t ht => hacct t (List.mem_cons_of_mem _ ht))
      (fun t ht => hok t (List.mem_cons_of_mem _ ht))
      hacc1 hw1
    refine ⟨v :: vs1, st2, ?_, ?_⟩
    · unfold process_batch
      rw [hpt]
      dsimp only
      rw [hb]
    · simp only [List.map_cons]
      rw [hflag, hflags]
      rfl

/-- A transaction of account A at epoch second t (amount 100, country US). -/
def tx_A (t : ℤ) : Transaction :=
  ⟨"T" ++ toString t, .pdTs t, "A", 100, "US", none⟩

/-- C5 amended: with the default configuration (rapid_transactions enabled,
window 300 s, threshold 3) and an account's transactions arriving in
nondecreasing timestamp order, the rule triggers on the k-th transaction
exactly when at least 3 of the account's first k+1 transactions (the
current one included) have timestamps within the trailing 300-second window
of the current timestamp; the claim's concrete scenarios hold: for account
A at t = 0, 100, 200 the third evaluation triggers, a fourth at t = 1000
does not, and a fourth at t = 250 does. The nondecreasing-order condition
is required: see the counterexample, where the retained window keeps a
future-dated entry because pruning bounds timestamps only from below. -/
theorem C5_rapid_trailing_window (distf : ℚ × ℚ → ℚ × ℚ → ℚ) (nows : ℕ → ℤ)
    (txs : List Transaction) (a : String)
    (hacct : ∀ tx ∈ txs, tx.account_id = a)
    (hok : ∀ tx ∈ txs, ts_ok tx.timestamp = true)
    (hmono : (txs.map (fun tx => tsVal tx.timestamp)).Pairwise (· ≤ ·)) :
    (∃ vs st',
      process_batch distf default_rules nows initialState txs = .ok (vs, st') ∧
      vs.map (fun v => v.triggered_rules.contains "rapid_transactions") =
        rapid_flags_spec (txs.map (fun tx => tsVal tx.timestamp))) ∧
    (process_batch distf0 default_rules (fun _ => 0) initialState
        [tx_A 0, tx_A 100, tx_A 200]).toOption.map
        (fun p => p.1.map (fun v => v.triggered_rules.contains "rapid_transactions"))
      = some [false, false, true] ∧
    (process_batch distf0 default_rules (fun _ => 0) initialState
        [tx_A 0, tx_A 100, tx_A 200, tx_A 1000]).toOption.map
        (fun p => p.1.map (fun v => v.triggered_rules.contains "rapid_transactions"))
      = some [false, false, true, false] ∧
    (process_batch distf0 default_rules (fun _ => 0) initialState
        [tx_A 0, tx_A 100, tx_A 200, tx_A 250]).toOption.map
        (fun p => p.1.map (fun v => v.triggered_rules.contains "rapid_transactions"))
      = some [false, false, true, true] := by
  refine ⟨?_, by with_unfolding_all rfl, by with_unfolding_all rfl,
    by with_unfolding_all rfl⟩
  obtain ⟨vs, st', hb, hf⟩ := batch_rapid_bridge distf a txs nows initialState []
    hacct hok (by intro pr hpr; simp [initialState] at hpr) rfl
  refine ⟨vs, st', hb, ?_⟩
  have hmono' : (txs.map (fun tx => (tsVal tx.timestamp, tx.amount))).Pairwise
      (fun p q => p.1 ≤ q.1) := by
    rw [List.pairwise_map]
    rw [List.pairwise_map] at hmono
    exact hmono
  rw [hf, foldFlags_eq_spec _ hmono', List.map_map]
  rfl

/-- Counterexample to C5 as stated: replaying account A's transactions at
t = 1000, 100, 101 s (timestamps out of order), the third evaluation
triggers rapid_transactions even though only two of the account's
transactions (t = 100 and t = 101) have timestamps within the trailing
300-second window of the current timestamp 101 — the pruning predicate
`ts > cutoff` has no upper bound, so the future-dated entry t = 1000 stays
in the window and is counted. -/
theorem C5_counterexample_out_of_order :
    (process_batch distf0 default_rules (fun _ => 0) initialState
        [tx_A 1000, tx_A 100, tx_A 101]).toOption.map
        (fun p => p.1.map (fun v => v.triggered_rules.contains "rapid_transactions"))
      = some [false, false, true] ∧
    trailing_window_count [1000, 100, 101] 101 300 = 2 := by
  constructor
  · with_unfolding_all rfl
  · with_unfolding_all rfl

/-- Witness for C5 amended at the claim's own scenario. -/
theorem C5_rapid_trailing_window_witness :
    (process_batch distf0 default_rules (fun _ => 0) initialState
        [tx_A 0, tx_A 100, tx_A 200]).toOption.map
      (fun p => p.1.map (fun v => v.triggered_rules.contains "rapid_transactions")) =
      some (rapid_flags_spec ([tx_A 0, tx_A 100, tx_A 200].map
        (fun tx => tsVal tx.timestamp))) := by
  obtain ⟨vs, st', hb, hf⟩ := (C5_rapid_trailing_window distf0 (fun _ => 0)
    [tx_A 0, tx_A 100, tx_A 200] "A" (by with_unfolding_all decide)
    (by with_unfolding_all decide) (by with_unfolding_all decide)).1
  rw [hb]
  dsimp [Except.toOption]
  rw [hf]
  rfl

end TxAnomaly
